import Mathlib

/-!
Verification of the place-search client (`app.py`, `main.py`).

The Python source is shallowly embedded: strings are `List Char` (queries in
this repository are ASCII, and the embedding of `\s`, `\w`, `str.lower`,
`str.strip` is faithful on ASCII text), dictionaries with a fixed key set are
structures with `Option` fields, the Flask handlers are pure functions from
the session store and the (externally supplied) upstream response to the new
store and the JSON outcome, and paths that raise in Python return `Option`
or a dedicated error constructor.
-/

namespace ScottGoogle

/-- Python regex `\s` / `str.isspace` on ASCII characters. -/
def isPySpace (c : Char) : Bool :=
  decide (c = ' ' ∨ c = '\t' ∨ c = '\n' ∨ c = '\x0d' ∨ c = '\x0b' ∨ c = '\x0c')

/-- Python regex `\w` on ASCII characters: alphanumeric or underscore. -/
def isWordChar (c : Char) : Bool :=
  c.isAlphanum || decide (c = '_')

/-- Python `str.strip()`: drop leading and trailing whitespace. -/
def pyStrip (cs : List Char) : List Char :=
  ((cs.dropWhile isPySpace).reverse.dropWhile isPySpace).reverse

/-- Helper for `wsTokens`: `cur` holds the reversed characters of the token
being read. -/
def wsTokensAux : List Char → List Char → List (List Char)
  | cur, [] => if cur = [] then [] else [cur.reverse]
  | cur, c :: rest =>
    if isPySpace c then
      if cur = [] then wsTokensAux [] rest else cur.reverse :: wsTokensAux [] rest
    else wsTokensAux (c :: cur) rest

/-- Python `str.split()` with no argument: split on whitespace runs,
discarding empty tokens. -/
def wsTokens (cs : List Char) : List (List Char) :=
  wsTokensAux [] cs

/-- Python `str.lower()` (ASCII). -/
def lowerStr (cs : List Char) : List Char :=
  cs.map Char.toLower

/-- Test `leadsWith pat cs` is true when `pat` is an initial segment of `cs`. -/
def leadsWith : List Char → List Char → Bool
  | [], _ => true
  | _ :: _, [] => false
  | p :: ps, c :: cs => decide (p = c) && leadsWith ps cs

/-- Python `pat in s`: substring containment test. -/
def containsSub (pat : List Char) : List Char → Bool
  | [] => leadsWith pat []
  | c :: rest => leadsWith pat (c :: rest) || containsSub pat rest

/-- The literal separator `' in '` used by `generate_filename` when it
extracts the business type (`search_query.split(' in ')`). -/
def inPat : List Char := [' ', 'i', 'n', ' ']

/-- Python `search_query.split(' in ')[0]`: the prefix of the string before the
first occurrence of the literal `" in "`, or the whole string when the
literal does not occur. -/
def beforeLitIn : List Char → List Char
  | [] => []
  | c :: rest => if leadsWith inPat (c :: rest) = true then [] else c :: beforeLitIn rest

/-- Backtracking step of `\s+([^,]+)` when the character after the maximal
whitespace run is a comma (or the string ends there): the regex engine gives
the last whitespace character back to `[^,]+`, which needs the run to have
length at least 2.  Input: the maximal whitespace run. -/
def backtrackGroup : List Char → Option (List Char)
  | [] => none
  | [_] => none
  | _ :: c :: rest => some [List.getLastD rest c]

/-- Group 1 of Python `re.match(r'\s+([^,]+)', cs)`: greedy `\s+`, then a
greedy nonempty `[^,]+`, with the regex engine's backtracking when the
character following the whitespace run is a comma or the string ends. -/
def groupAfterSpaces (cs : List Char) : Option (List Char) :=
  if cs.takeWhile isPySpace = [] then none
  else
    match cs.dropWhile isPySpace with
    | [] => backtrackGroup (cs.takeWhile isPySpace)
    | c :: rest =>
      if c = ',' then backtrackGroup (cs.takeWhile isPySpace)
      else some ((c :: rest).takeWhile (fun d => decide (d ≠ ',')))

/-- Attempt of `re.search(r'in\s+([^,]+)', ..., re.IGNORECASE)` anchored at
the head of the list: `i`/`I` then `n`/`N` then `\s+([^,]+)`. -/
def matchAt : List Char → Option (List Char)
  | c1 :: c2 :: rest =>
    if (c1 = 'i' ∨ c1 = 'I') ∧ (c2 = 'n' ∨ c2 = 'N') then groupAfterSpaces rest
    else none
  | _ => none

/-- Python `re.search(r'in\s+([^,]+)', cs, re.IGNORECASE)`: try `matchAt` at
every start position from left to right and return the first group. -/
def findCityMatch : List Char → Option (List Char)
  | [] => none
  | c :: rest =>
    match matchAt (c :: rest) with
    | some g => some g
    | none => findCityMatch rest

/-- Lines 100-110 of `app.py` (166-176 of `main.py`): the `city` component of
`generate_filename` before cleanup.  First match of the regex, stripped; else
if the query has more than 2 whitespace tokens, the last two tokens joined by
an underscore; else the literal `"search_results"`. -/
def cityOf (q : List Char) : List Char :=
  match findCityMatch q with
  | some g => pyStrip g
  | none =>
    if (wsTokens q).length > 2 then
      ((wsTokens q)[(wsTokens q).length - 2]?).getD [] ++
        '_' :: ((wsTokens q)[(wsTokens q).length - 1]?).getD []
    else String.toList "search_results"

/-- Line 113 of `app.py` (179 of `main.py`): the `business_type` component of
`generate_filename` before cleanup.  The condition tests the lowercased
query for `' in '`, but the split runs on the original string; `none` models
the `IndexError` that `search_query.split()[0]` raises on a query with no
whitespace tokens. -/
def categoryOf (q : List Char) : Option (List Char) :=
  if containsSub inPat (lowerStr q) = true then some (pyStrip (beforeLitIn q))
  else (wsTokens q).head?

/-- Helper for `collapseRuns`: the flag records whether the previous
character was part of a whitespace/hyphen run already replaced by `'_'`. -/
def collapseAux : Bool → List Char → List Char
  | _, [] => []
  | inRun, c :: rest =>
    if isPySpace c || decide (c = '-') then
      if inRun then collapseAux true rest else '_' :: collapseAux true rest
    else c :: collapseAux false rest

/-- Python `re.sub(r'[-\s]+', '_', cs)`: replace every maximal run of
hyphens/whitespace by a single underscore. -/
def collapseRuns (cs : List Char) : List Char :=
  collapseAux false cs

/-- Lines 116-120 of `app.py`: `re.sub(r'[^\w\s-]', '', s).strip()` followed
by `re.sub(r'[-\s]+', '_', s)`. -/
def cleanupComponent (cs : List Char) : List Char :=
  collapseRuns (pyStrip (cs.filter (fun c => isWordChar c || isPySpace c || decide (c = '-'))))

/-- Embedding of `generate_filename`, `app.py` lines 88-125 (`main.py` lines 154-191):
`f"{city}_{business_type}_results.csv"` after cleanup of both components;
`none` models the `IndexError` raised on a query with no whitespace tokens
and no `' in '` in its lowercasing. -/
def generate_filename (q : List Char) : Option (List Char) :=
  match categoryOf q with
  | none => none
  | some business_type =>
    some (cleanupComponent (cityOf q) ++ '_' ::
      (cleanupComponent business_type ++ String.toList "_results.csv"))

/-- The function `generate_filename` on `String`. -/
def deriveFilename (q : String) : Option String :=
  (generate_filename q.toList).map String.mk

/-- One entry of the `places` array of an upstream response.  Each field is
`none` when the corresponding key is absent (`place.get(key, "")` supplies
the default); `displayNameText` is the nested `displayName.text` value, and
it is `none` when either level is missing.  `rating`/`userRatingCount` carry
the serialized form of the JSON scalar. -/
structure Place where
  id : Option String
  displayNameText : Option String
  formattedAddress : Option String
  primaryType : Option String
  rating : Option String
  userRatingCount : Option String
  businessStatus : Option String
deriving DecidableEq

/-- An upstream `places:searchText` response body: `places` is `none` when
the key is absent, `nextPageToken` likewise. -/
structure ApiResponse where
  places : Option (List Place)
  nextPageToken : Option String
deriving DecidableEq

/-- The fixed-shape dictionary built for one place (lines 75-83 of
`app.py`). -/
structure PlaceRecord where
  id : String
  displayName : String
  formattedAddress : String
  primaryType : String
  rating : String
  userRatingCount : String
  businessStatus : String
deriving DecidableEq

/-- The per-place body of the loop in `extract_place_data`. -/
def toRecord (p : Place) : PlaceRecord :=
  ⟨p.id.getD "", p.displayNameText.getD "", p.formattedAddress.getD "",
   p.primaryType.getD "", p.rating.getD "", p.userRatingCount.getD "",
   p.businessStatus.getD ""⟩

/-- Embedding of `extract_place_data`, `app.py` lines 59-86 (`main.py` lines 57-85):
empty list when the `places` key is absent, otherwise one record per
entry. -/
def extract_place_data (resp : ApiResponse) : List PlaceRecord :=
  match resp.places with
  | none => []
  | some ps => ps.map toRecord

/-- Python truthiness of a stored/received `nextPageToken`: `None` and the
empty string are falsy. -/
def truthyToken : Option String → Bool
  | none => false
  | some t => decide (t ≠ "")

/-- One value of the `session_data` store (lines 149-155 of `app.py`). -/
structure Session where
  query : String
  all_places : List PlaceRecord
  next_page_token : Option String
  page_count : Nat
  filename : String
deriving DecidableEq

/-- The `session_data` dict.  Ids are `"session_{len(session_data)}"` and
entries are never deleted, so the store is a list indexed by creation order
and the id `session_{k}` is the index `k`. -/
def lookupSession : List Session → Nat → Option Session
  | [], _ => none
  | s :: _, 0 => some s
  | _ :: rest, n + 1 => lookupSession rest n

/-- In-place mutation of `session_data[session_id]` (the dict holds a
reference, `app.py` mutates it through `session`). -/
def setSession : List Session → Nat → Session → List Session
  | [], _, _ => []
  | _ :: rest, 0, s2 => s2 :: rest
  | s :: rest, n + 1, s2 => s :: setSession rest n s2

/-- Python `data.get('query', '').strip()` (line 135 of `app.py`). -/
def stripQuery (raw : String) : String :=
  String.mk (pyStrip raw.toList)

/-- JSON outcome of the `/api/search` handler.  `badRequest` is the 400 for
an empty query, `noResults` the 404 `'No places found matching your search
criteria'`, `serverError` the 500 produced when `generate_filename` raises
(unreachable for a non-empty stripped query), and `ok` carries the fields of
the success payload. -/
inductive SearchOutcome where
  | badRequest
  | noResults
  | serverError
  | ok (session_id : Nat) (places : List PlaceRecord) (has_more : Bool)
      (total_count : Nat) (filename : String)
deriving DecidableEq

/-- The `/api/search` handler (`search`, `app.py` lines 130-166).  `resp` is
the upstream response `search_places` would return; the handler touches it
only on the paths where the Python code issues the request. -/
def searchHandler (store : List Session) (rawQuery : String) (resp : ApiResponse) :
    List Session × SearchOutcome :=
  if stripQuery rawQuery = "" then (store, .badRequest)
  else if extract_place_data resp = [] then (store, .noResults)
  else
    match generate_filename (stripQuery rawQuery).toList with
    | none => (store, .serverError)
    | some fn =>
      (store ++ [⟨stripQuery rawQuery, extract_place_data resp, resp.nextPageToken, 1,
         String.mk fn⟩],
       .ok store.length (extract_place_data resp) (truthyToken resp.nextPageToken)
         (extract_place_data resp).length (String.mk fn))

/-- JSON outcome of the `/api/search/more` handler: the 400s for an unknown
session, a falsy `next_page_token` (`'No more results available'`) and a
reached page cap (`'Maximum results limit reached (60 results)'`), the 404
`'No additional places found'`, and the success payload. -/
inductive MoreOutcome where
  | invalidSession
  | noMore
  | pageLimit
  | noAdditional
  | ok (places : List PlaceRecord) (has_more : Bool) (total_count : Nat)
      (page_count : Nat)
deriving DecidableEq

/-- Result of one `/api/search/more` call: the store after the call, the
JSON outcome, and whether the handler executed `time.sleep(3)` (line 187)
and the upstream request (line 190).  The two flags are listed separately
because the spec distinguishes the settling delay from the upstream call;
in the code they happen together. -/
structure MoreResult where
  store : List Session
  outcome : MoreOutcome
  slept : Bool
  upstreamCalled : Bool
deriving DecidableEq

/-- The `/api/search/more` handler (`search_more`, `app.py` lines 168-209).
`resp` is the upstream response the continuation request would return. -/
def searchMoreHandler (store : List Session) (sid : Nat) (resp : ApiResponse) :
    MoreResult :=
  match lookupSession store sid with
  | none => ⟨store, .invalidSession, false, false⟩
  | some s =>
    if truthyToken s.next_page_token = false then ⟨store, .noMore, false, false⟩
    else if 3 ≤ s.page_count then ⟨store, .pageLimit, false, false⟩
    else if extract_place_data resp = [] then ⟨store, .noAdditional, true, true⟩
    else
      ⟨setSession store sid
         ⟨s.query, s.all_places ++ extract_place_data resp, resp.nextPageToken,
          s.page_count + 1, s.filename⟩,
       .ok (extract_place_data resp)
         (truthyToken resp.nextPageToken && decide (s.page_count + 1 < 3))
         (s.all_places ++ extract_place_data resp).length (s.page_count + 1),
       true, true⟩

/-- The CSV header row, in the fixed field order (line 228 of `app.py`,
line 101 of `main.py`). -/
def headerRow : List String :=
  ["id", "displayName", "formattedAddress", "primaryType", "rating",
   "userRatingCount", "businessStatus"]

/-- The CSV row `csv.DictWriter` emits for one record. -/
def recordRow (r : PlaceRecord) : List String :=
  [r.id, r.displayName, r.formattedAddress, r.primaryType, r.rating,
   r.userRatingCount, r.businessStatus]

/-- Outcome of the `/api/download/<session_id>` handler: the 400s for an
unknown session and for an empty record list (`'No data to download'`), or
the served file as its CSV rows together with the download name. -/
inductive DownloadOutcome where
  | invalidSession
  | noData
  | file (lines : List (List String)) (download_name : String)
deriving DecidableEq

/-- The `/api/download/<session_id>` handler (`download_csv`, `app.py`
lines 211-243): header row then one row per accumulated record. -/
def downloadCsvHandler (store : List Session) (sid : Nat) : DownloadOutcome :=
  match lookupSession store sid with
  | none => .invalidSession
  | some s =>
    if s.all_places = [] then .noData
    else .file (headerRow :: s.all_places.map recordRow) s.filename

/-- Embedding of `save_to_csv`, `main.py` lines 88-119.  `fileRows` is the current
content of the destination file as CSV rows (`[]` for a newly created or
empty file).  `none` models the early return on empty data (`'No data to
save to CSV'` is printed and the file is not touched); otherwise the result
is the file content after the write.  In mode `'w'` the file is truncated,
in mode `'a'` `csvfile.tell() == 0` holds exactly when the file is empty,
and the header is written when `not append or csvfile.tell() == 0`. -/
def save_to_csv (fileRows : List (List String)) (places_data : List PlaceRecord)
    (append : Bool) : Option (List (List String)) :=
  if places_data = [] then none
  else
    let base := if append then fileRows else []
    let withHeader := if append = false ∨ base = [] then base ++ [headerRow] else base
    some (withHeader ++ places_data.map recordRow)

/-- The stores reachable from the empty initial `session_data` by any
sequence of `/api/search` and `/api/search/more` calls, with arbitrary
queries, session ids and upstream responses (`/api/download` does not
modify the store). -/
inductive Reachable : List Session → Prop where
  | init : Reachable []
  | searchStep : ∀ (store : List Session) (q : String) (resp : ApiResponse),
      Reachable store → Reachable (searchHandler store q resp).1
  | moreStep : ∀ (store : List Session) (sid : Nat) (resp : ApiResponse),
      Reachable store → Reachable (searchMoreHandler store sid resp).store

/-- A sample upstream place entry with every field present. -/
def samplePlace : Place :=
  ⟨some "p1", some "Pizza Palace", some "1 Main St", some "restaurant",
   some "4.5", some "120", some "OPERATIONAL"⟩

/-- A second sample upstream place entry. -/
def samplePlace2 : Place :=
  ⟨some "p2", some "Pasta Corner", some "2 Oak Ave", some "restaurant",
   some "4.2", some "80", some "OPERATIONAL"⟩

/-- The record extracted from `samplePlace`. -/
def sampleRecord : PlaceRecord := toRecord samplePlace

/-- The record extracted from `samplePlace2`. -/
def sampleRecord2 : PlaceRecord := toRecord samplePlace2

/-- A first-page response with one place and a continuation token. -/
def respTok : ApiResponse := ⟨some [samplePlace], some "tok2"⟩

/-- A continuation response with one place and a further token. -/
def respTok2 : ApiResponse := ⟨some [samplePlace2], some "tok3"⟩

/-- A continuation response with one place and no further token. -/
def respNoTok : ApiResponse := ⟨some [samplePlace2], none⟩

/-- A response with no `places` key. -/
def respNoPlaces : ApiResponse := ⟨none, some "tokX"⟩

/-- The store after one successful `/api/search` for `"pizza"`. -/
def store1 : List Session := (searchHandler [] "pizza" respTok).1

/-- The single session of `store1`. -/
def sess1 : Session :=
  ⟨"pizza", [sampleRecord], some "tok2", 1, "search_results_pizza_results.csv"⟩

/-- The store `store1` after a successful `/api/search/more` (page 2). -/
def store2 : List Session := (searchMoreHandler store1 0 respTok2).store

/-- The store `store2` after a successful `/api/search/more` whose response carries no
further token (page 3). -/
def store3 : List Session := (searchMoreHandler store2 0 respNoTok).store

/-- The session of `store3`: page cap reached and no stored token. -/
def sess3 : Session :=
  ⟨"pizza", [sampleRecord, sampleRecord2, sampleRecord2], none, 3,
   "search_results_pizza_results.csv"⟩

/-- A session whose stored token is absent. -/
def sessNoTok : Session := ⟨"q", [sampleRecord], none, 1, "f.csv"⟩

/-- A session at the page cap with a stored token. -/
def sessCap : Session := ⟨"q", [sampleRecord], some "t", 3, "f.csv"⟩

/-- A session with an empty record list (not reachable through the handlers,
used to exercise the export guard). -/
def sessEmptyRecs : Session := ⟨"q", [], none, 1, "f.csv"⟩

/-- Claim C8: if the first-page response yields zero extracted records,
`startSearch` fails with the 404 `NoResultsError` and the session store is
unchanged — no session is created. -/
theorem c8_no_results_no_session (store : List Session) (rawq : String)
    (resp : ApiResponse) (h1 : stripQuery rawq ≠ "")
    (h2 : extract_place_data resp = []) :
    searchHandler store rawq resp = (store, .noResults) := by
  unfold searchHandler
  rw [if_neg h1, if_pos h2]

/-- Claim C8 witness: a valid query whose first response has no `places`
key yields `noResults` and leaves the empty store empty. -/
theorem c8_witness :
    searchHandler [] "pizza" respNoPlaces = ([], SearchOutcome.noResults) :=
  c8_no_results_no_session [] "pizza" respNoPlaces (by decide) (by decide)

/-- Claim C9: when `continueSearch` fetches a continuation page from which
zero records are extracted, it returns the 404 `'No additional places
found'` and the store — hence every field of the session: records, stored
token, `page_count` — is unchanged (the sleep and the upstream call did
happen on this path). -/
theorem c9_empty_continuation_frame (store : List Session) (sid : Nat)
    (s : Session) (resp : ApiResponse) (h : lookupSession store sid = some s)
    (ht : truthyToken s.next_page_token = true) (hp : s.page_count < 3)
    (he : extract_place_data resp = []) :
    searchMoreHandler store sid resp = ⟨store, .noAdditional, true, true⟩ := by
  simp only [searchMoreHandler, h]
  rw [if_neg (by simp [ht]), if_neg (by omega), if_pos he]

/-- Claim C9 witness: an empty continuation page against the store created
by one successful search leaves that store intact. -/
theorem c9_witness :
    searchMoreHandler store1 0 respNoPlaces
      = ⟨store1, MoreOutcome.noAdditional, true, true⟩ :=
  c9_empty_continuation_frame store1 0 sess1 respNoPlaces (by decide) (by decide)
    (by decide) (by decide)

/-- Claim C2 counterexample: the claim as stated is false, because the
absent-token check runs before the page-cap check.  The store `store3` is
built by three genuine handler calls (search, then two continuations, the
last response carrying no token), so its session has `page_count = 3` and
no stored token; `fetchNext` on it fails with `noMore`, not `pageLimit` as
the claim requires for every session with `page_count >= 3`. -/
theorem c2_counterexample :
    lookupSession store3 0 = some sess3 ∧ 3 ≤ sess3.page_count ∧
    (searchMoreHandler store3 0 respTok).outcome = MoreOutcome.noMore ∧
    MoreOutcome.noMore ≠ MoreOutcome.pageLimit := by decide

/-- Claim C2 (amended): `fetchNext` on a session whose `nextToken` is falsy
fails with `NoMoreResults`; otherwise, when `pageCount >= 3`, it fails with
`PageLimitReached`; in both cases the store is unchanged and neither the
settling delay nor the upstream call is executed. -/
theorem c2_guard_errors (store : List Session) (sid : Nat) (s : Session)
    (resp : ApiResponse) (h : lookupSession store sid = some s) :
    (truthyToken s.next_page_token = false →
      searchMoreHandler store sid resp = ⟨store, .noMore, false, false⟩) ∧
    (truthyToken s.next_page_token = true → 3 ≤ s.page_count →
      searchMoreHandler store sid resp = ⟨store, .pageLimit, false, false⟩) := by
  constructor
  · intro hf
    simp only [searchMoreHandler, h]
    rw [if_pos hf]
  · intro ht hc
    simp only [searchMoreHandler, h]
    rw [if_neg (by simp [ht]), if_pos hc]

/-- Claim C2 witness: both guards exercised on concrete sessions. -/
theorem c2_witness :
    searchMoreHandler [sessNoTok] 0 respTok
      = ⟨[sessNoTok], MoreOutcome.noMore, false, false⟩ ∧
    searchMoreHandler [sessCap] 0 respTok
      = ⟨[sessCap], MoreOutcome.pageLimit, false, false⟩ :=
  ⟨(c2_guard_errors [sessNoTok] 0 sessNoTok respTok (by decide)).1 (by decide),
   (c2_guard_errors [sessCap] 0 sessCap respTok (by decide)).2 (by decide) (by decide)⟩

/-- Claim C6: export on an empty record sequence fails with `NoDataError`
in both variants (the served 400 `'No data to download'`, the non-served
early return `'No data to save to CSV'`), and export of a non-empty
sequence produces a CSV with one header row plus one row per record. -/
theorem c6_export_guard_and_row_count :
    (∀ (store : List Session) (sid : Nat) (s : Session),
      lookupSession store sid = some s → s.all_places = [] →
      downloadCsvHandler store sid = .noData) ∧
    (∀ (store : List Session) (sid : Nat) (s : Session),
      lookupSession store sid = some s → s.all_places ≠ [] →
      downloadCsvHandler store sid
          = .file (headerRow :: s.all_places.map recordRow) s.filename ∧
        (headerRow :: s.all_places.map recordRow).length
          = s.all_places.length + 1) ∧
    (∀ (rows : List (List String)) (recs : List PlaceRecord) (apnd : Bool),
      recs = [] → save_to_csv rows recs apnd = none) ∧
    (∀ (rows : List (List String)) (recs : List PlaceRecord), recs ≠ [] →
      save_to_csv rows recs false = some (headerRow :: recs.map recordRow) ∧
        (headerRow :: recs.map recordRow).length = recs.length + 1) := by
  refine ⟨?_, ?_, ?_, ?_⟩
  · intro store sid s h he
    simp only [downloadCsvHandler, h]
    rw [if_pos he]
  · intro store sid s h hne
    simp only [downloadCsvHandler, h]
    rw [if_neg hne]
    exact ⟨rfl, by simp⟩
  · intro rows recs apnd he
    simp [save_to_csv, he]
  · intro rows recs hne
    refine ⟨?_, by simp⟩
    simp [save_to_csv, hne]

/-- Claim C6 witness: the four parts at concrete stores and record lists. -/
theorem c6_witness :
    downloadCsvHandler [sessEmptyRecs] 0 = DownloadOutcome.noData ∧
    downloadCsvHandler store1 0
      = DownloadOutcome.file [headerRow, recordRow sampleRecord]
          "search_results_pizza_results.csv" ∧
    save_to_csv [headerRow] [] true = none ∧
    save_to_csv [] [sampleRecord] false
      = some [headerRow, recordRow sampleRecord] := by
  refine ⟨?_, ?_, ?_, ?_⟩
  · exact c6_export_guard_and_row_count.1 [sessEmptyRecs] 0 sessEmptyRecs
      (by decide) (by decide)
  · have h := c6_export_guard_and_row_count.2.1 store1 0 sess1 (by decide) (by decide)
    simpa [sess1, sampleRecord, samplePlace, toRecord, recordRow] using h.1
  · exact c6_export_guard_and_row_count.2.2.1 [headerRow] [] true rfl
  · have h := c6_export_guard_and_row_count.2.2.2 [] [sampleRecord] (by decide)
    simpa using h.1

/-- Claim C7: in append mode (with a non-empty record list, so the early
empty-data return is not taken) the header row is written exactly when the
destination file is newly created or empty, and appending to a populated
file adds no header row beyond those the file already had. -/
theorem c7_append_header_once (rows : List (List String))
    (recs : List PlaceRecord) (hne : recs ≠ [])
    (hnh : (recs.map recordRow).count headerRow = 0) :
    save_to_csv rows recs true
      = some ((if rows = [] then [headerRow] else rows) ++ recs.map recordRow) ∧
    ((if rows = [] then [headerRow] else rows) ++ recs.map recordRow).count headerRow
      = if rows = [] then 1 else rows.count headerRow := by
  constructor
  · by_cases hr : rows = [] <;> simp [save_to_csv, hne, hr]
  · by_cases hr : rows = [] <;> simp [hr, hnh]

/-- Claim C7 witness: appending to an empty file writes the header once;
appending the same records to the resulting populated file does not add a
second header. -/
theorem c7_witness :
    save_to_csv [] [sampleRecord] true = some [headerRow, recordRow sampleRecord] ∧
    save_to_csv [headerRow, recordRow sampleRecord] [sampleRecord2] true
      = some [headerRow, recordRow sampleRecord, recordRow sampleRecord2] ∧
    ([headerRow, recordRow sampleRecord, recordRow sampleRecord2].count headerRow
      = [headerRow, recordRow sampleRecord].count headerRow) := by
  have h1 := c7_append_header_once [] [sampleRecord] (by decide) (by decide)
  have h2 := c7_append_header_once [headerRow, recordRow sampleRecord] [sampleRecord2]
    (by decide) (by decide)
  refine ⟨by simpa using h1.1, by simpa using h2.1, ?_⟩
  have := h2.2
  simpa using this

/-- Claim C10: a successful `continueSearch` reports `has_more` exactly when
the new response's token is truthy and the updated `page_count` is strictly
below 3, while a successful `startSearch` reports `has_more` exactly when
the first response's token is truthy, with no page-cap comparison (the
created session has `page_count = 1`, so no cap conjunct appears in the
code and none is needed). -/
theorem c10_has_more_flags :
    (∀ (store : List Session) (rawq : String) (resp : ApiResponse)
        (store2 : List Session) (sid : Nat) (places : List PlaceRecord)
        (hm : Bool) (tc : Nat) (fn : String),
      searchHandler store rawq resp = (store2, .ok sid places hm tc fn) →
      hm = truthyToken resp.nextPageToken) ∧
    (∀ (store : List Session) (sid : Nat) (resp : ApiResponse)
        (places : List PlaceRecord) (hm : Bool) (tc pc : Nat),
      (searchMoreHandler store sid resp).outcome = .ok places hm tc pc →
      hm = (truthyToken resp.nextPageToken && decide (pc < 3))) := by
  constructor
  · intro store rawq resp store2 sid places hm tc fn h
    unfold searchHandler at h
    split_ifs at h with h1 h2
    · simp at h
    · simp at h
    · rcases hg : generate_filename (stripQuery rawq).toList with _ | fn2
      · rw [hg] at h; simp at h
      · rw [hg] at h
        simp only [Prod.mk.injEq, SearchOutcome.ok.injEq] at h
        exact h.2.2.2.1.symm
  · intro store sid resp places hm tc pc h
    unfold searchMoreHandler at h
    split at h
    · simp at h
    · rename_i s hl
      by_cases h1 : truthyToken s.next_page_token = false
      · rw [if_pos h1] at h
        simp at h
      · rw [if_neg h1] at h
        by_cases h2 : 3 ≤ s.page_count
        · rw [if_pos h2] at h
          simp at h
        · rw [if_neg h2] at h
          by_cases h3 : extract_place_data resp = []
          · rw [if_pos h3] at h
            simp at h
          · rw [if_neg h3] at h
            have h4 := MoreOutcome.ok.inj h
            rw [← h4.2.1, h4.2.2.2]

/-- Claim C10 witness: the two parts at a concrete successful search and a
concrete successful continuation. -/
theorem c10_witness :
    true = truthyToken respTok.nextPageToken ∧
    true = (truthyToken respTok2.nextPageToken && decide (2 < 3)) :=
  ⟨c10_has_more_flags.1 [] "pizza" respTok store1 0 [sampleRecord] true 1
      "search_results_pizza_results.csv" (by decide),
   c10_has_more_flags.2 store1 0 respTok2 [sampleRecord2] true 2 2 (by decide)⟩

/-- The handler `searchHandler` either leaves the store unchanged or appends one session
with `page_count = 1`. -/
theorem searchHandler_fst_cases (store : List Session) (q : String)
    (resp : ApiResponse) :
    (searchHandler store q resp).1 = store ∨
    ∃ sess : Session, (searchHandler store q resp).1 = store ++ [sess] ∧
      sess.page_count = 1 := by
  unfold searchHandler
  split_ifs with h1 h2
  · exact Or.inl rfl
  · exact Or.inl rfl
  · split
    · exact Or.inl rfl
    · exact Or.inr ⟨_, rfl, rfl⟩

/-- The handler `searchMoreHandler` either leaves the store unchanged or overwrites the
addressed session, whose `page_count` was below 3, with one whose
`page_count` is its successor. -/
theorem searchMoreHandler_store_cases (store : List Session) (sid : Nat)
    (resp : ApiResponse) :
    (searchMoreHandler store sid resp).store = store ∨
    ∃ s s2 : Session, lookupSession store sid = some s ∧ s.page_count < 3 ∧
      s2.page_count = s.page_count + 1 ∧
      (searchMoreHandler store sid resp).store = setSession store sid s2 := by
  unfold searchMoreHandler
  split
  · exact Or.inl rfl
  · rename_i s hl
    split_ifs with h1 h2 h3
    · exact Or.inl rfl
    · exact Or.inl rfl
    · exact Or.inl rfl
    · exact Or.inr ⟨s, _, hl, by omega, rfl, rfl⟩

/-- A member of `setSession l i a` is a member of `l` or is `a` itself. -/
theorem mem_setSession (l : List Session) (i : Nat) (a b : Session)
    (h : b ∈ setSession l i a) : b ∈ l ∨ b = a := by
  induction l generalizing i with
  | nil => rw [setSession] at h; exact Or.inl h
  | cons s rest ih =>
    cases i with
    | zero =>
      simp only [setSession, List.mem_cons] at h
      rcases h with h | h
      · exact Or.inr h
      · exact Or.inl (List.mem_cons_of_mem _ h)
    | succ n =>
      simp only [setSession, List.mem_cons] at h
      rcases h with h | h
      · exact Or.inl (h ▸ List.mem_cons_self _ _)
      · rcases ih n h with h2 | h2
        · exact Or.inl (List.mem_cons_of_mem _ h2)
        · exact Or.inr h2

/-- Claim C1: in every store reachable by any sequence of `startSearch` and
`fetchNext` calls, every session's `page_count` is at most 3, regardless of
how many times `fetchNext` is invoked and of whether responses still carry
continuation tokens. -/
theorem c1_page_count_never_exceeds_cap (store : List Session)
    (h : Reachable store) : ∀ s ∈ store, s.page_count ≤ 3 := by
  induction h with
  | init => intro s hs; cases hs
  | searchStep store q resp hr ih =>
    intro s hs
    rcases searchHandler_fst_cases store q resp with hc | ⟨sess, hc, hpc⟩
    · exact ih s (hc ▸ hs)
    · rw [hc] at hs
      rcases List.mem_append.mp hs with h1 | h1
      · exact ih s h1
      · simp only [List.mem_singleton] at h1
        rw [h1, hpc]
        omega
  | moreStep store sid resp hr ih =>
    intro s hs
    rcases searchMoreHandler_store_cases store sid resp with hc | ⟨s0, s2, hl, hlt, hpc, hc⟩
    · exact ih s (hc ▸ hs)
    · rw [hc] at hs
      rcases mem_setSession store sid s2 s hs with h1 | h1
      · exact ih s h1
      · rw [h1, hpc]
        omega

/-- Claim C1 witness: the store reached by one successful search contains
`sess1`, whose `page_count` respects the cap. -/
theorem c1_witness : sess1 ∈ store1 ∧ sess1.page_count ≤ 3 :=
  ⟨by decide,
   c1_page_count_never_exceeds_cap store1
     (Reachable.searchStep [] "pizza" respTok Reachable.init) sess1 (by decide)⟩

/-- Claim C3 counterexample: the spec's expected filename drops the words
after the city, but the regex group `[^,]+` runs to the next comma or the
end of the string, so the location is `"Fuquay-Varina North Carolina"`, not
`"Fuquay-Varina"`. -/
theorem c3_counterexample :
    deriveFilename "HVAC contractor in Fuquay-Varina North Carolina"
      ≠ some "Fuquay_Varina_HVAC_contractor_results.csv" := by decide

/-- Claim C3 (amended): `deriveFilename` on the example query returns
`"Fuquay_Varina_North_Carolina_HVAC_contractor_results.csv"`: the location
component is everything after `"in "` up to the end of the string (there is
no comma), cleaned up. -/
theorem c3_example_filename :
    deriveFilename "HVAC contractor in Fuquay-Varina North Carolina"
      = some "Fuquay_Varina_North_Carolina_HVAC_contractor_results.csv" := by decide

/-- Taking while not-comma (`takeWhile (fun d => d != ',')`) keeps a comma-free list whole. -/
theorem takeWhile_no_comma (l : List Char) (h : ',' ∉ l) :
    l.takeWhile (fun d => decide (d ≠ ',')) = l := by
  induction l with
  | nil => rfl
  | cons c rest ih =>
    have hc : c ≠ ',' := fun e => h (e ▸ List.mem_cons_self c rest)
    rw [List.takeWhile_cons, if_pos (by simp [hc])]
    rw [ih (fun hm => h (List.mem_cons_of_mem c hm))]

/-- Members of `takeWhile p l` satisfy `p`. -/
theorem mem_takeWhile_sat (p : Char → Bool) (l : List Char) (c : Char)
    (h : c ∈ l.takeWhile p) : p c = true := by
  induction l with
  | nil => cases h
  | cons a as ih =>
    rw [List.takeWhile_cons] at h
    by_cases hp : p a = true
    · rw [if_pos hp] at h
      rcases List.mem_cons.mp h with rfl | h2
      · exact hp
      · exact ih h2
    · rw [if_neg hp] at h
      cases h

/-- Taking while `p` walks through a block whose members all satisfy `p`. -/
theorem takeWhile_append_of_all (p : Char → Bool) (l1 l2 : List Char)
    (h : ∀ c ∈ l1, p c = true) :
    (l1 ++ l2).takeWhile p = l1 ++ l2.takeWhile p := by
  induction l1 with
  | nil => rfl
  | cons a as ih =>
    rw [List.cons_append, List.takeWhile_cons, if_pos (h a (List.mem_cons_self a as)),
        ih (fun c hc => h c (List.mem_cons_of_mem a hc)), List.cons_append]

/-- Dropping while `p` removes a block whose members all satisfy `p`. -/
theorem dropWhile_append_of_all (p : Char → Bool) (l1 l2 : List Char)
    (h : ∀ c ∈ l1, p c = true) :
    (l1 ++ l2).dropWhile p = l2.dropWhile p := by
  induction l1 with
  | nil => rfl
  | cons a as ih =>
    rw [List.cons_append, List.dropWhile_cons, if_pos (h a (List.mem_cons_self a as))]
    exact ih (fun c hc => h c (List.mem_cons_of_mem a hc))

/-- Stripping is insensitive to an all-whitespace block in front. -/
theorem pyStrip_append_all_ws (l1 s : List Char)
    (h : ∀ c ∈ l1, isPySpace c = true) : pyStrip (l1 ++ s) = pyStrip s := by
  unfold pyStrip
  rw [dropWhile_append_of_all isPySpace l1 s h]

/-- Stripping a list of whitespace characters gives the empty list. -/
theorem pyStrip_all_ws (l : List Char) (h : ∀ c ∈ l, isPySpace c = true) :
    pyStrip l = [] := by
  have h2 : pyStrip (l ++ []) = pyStrip [] := pyStrip_append_all_ws l [] h
  rw [List.append_nil] at h2
  exact h2

/-- If `dropWhile p l` is empty then every member of `l` satisfies `p`. -/
theorem all_sat_of_dropWhile_nil (p : Char → Bool) (l : List Char)
    (h : l.dropWhile p = []) : ∀ c ∈ l, p c = true := by
  induction l with
  | nil => intro c hc; cases hc
  | cons a as ih =>
    rw [List.dropWhile_cons] at h
    by_cases hp : p a = true
    · rw [if_pos (by simp [hp])] at h
      intro c hc
      rcases List.mem_cons.mp hc with rfl | h2
      · exact hp
      · exact ih h c h2
    · rw [if_neg (by simp [hp])] at h
      simp at h

/-- The default last element `getLastD rest c` is a member of `c :: rest`. -/
theorem getLastD_mem_cons (c : Char) (rest : List Char) :
    List.getLastD rest c ∈ c :: rest := by
  induction rest generalizing c with
  | nil => simp [List.getLastD]
  | cons b bs ih =>
    rw [List.getLastD_cons]
    exact List.mem_cons_of_mem _ (ih b)

/-- Group 1 of `\s+([^,]+)` on a whitespace character followed by a tail
`x` that is non-empty and does not begin with a comma (otherwise the match
attempt at this position fails and the scan moves on) strips to the same
characters as `x` truncated at its first comma.  When the truncation is
non-trivial, the group is the comma-free segment after the whitespace run;
when the character after the run is a comma or the input ends, the engine
backtracks and the group is one whitespace character, which strips to
nothing, as does the truncation, which is then all whitespace. -/
theorem groupAfterSpaces_strip (w : Char) (x : List Char)
    (hw : isPySpace w = true) (hx : x ≠ []) (hc : x.head? ≠ some ',') :
    ∃ g, groupAfterSpaces (w :: x) = some g ∧
      pyStrip g = pyStrip (x.takeWhile (fun d => decide (d ≠ ','))) := by
  have htw : (w :: x).takeWhile isPySpace = w :: x.takeWhile isPySpace := by
    rw [List.takeWhile_cons, if_pos hw]
  have hdw : (w :: x).dropWhile isPySpace = x.dropWhile isPySpace := by
    rw [List.dropWhile_cons, if_pos hw]
  have hallx : ∀ c ∈ x.takeWhile isPySpace, isPySpace c = true :=
    fun c hm => mem_takeWhile_sat isPySpace x c hm
  have hcomma_tw : ∀ cc ∈ x.takeWhile isPySpace, decide (cc ≠ ',') = true := by
    intro cc hm
    have h5 := hallx cc hm
    simp only [decide_eq_true_eq]
    intro e
    rw [e] at h5
    exact absurd h5 (by decide)
  have hsplit := List.takeWhile_append_dropWhile isPySpace x
  unfold groupAfterSpaces
  rw [htw, hdw, if_neg (by simp)]
  split
  · rename_i hd
    have hall : x.takeWhile isPySpace = x := by
      have h2 := List.takeWhile_append_dropWhile isPySpace x
      rw [hd, List.append_nil] at h2
      exact h2
    have hws : ∀ c ∈ x, isPySpace c = true := all_sat_of_dropWhile_nil isPySpace x hd
    have hnc : ',' ∉ x := by
      intro hm
      have h3 := hws ',' hm
      exact absurd h3 (by decide)
    rw [hall, takeWhile_no_comma x hnc]
    rcases x with _ | ⟨c2, rest2⟩
    · exact absurd rfl hx
    · refine ⟨[List.getLastD rest2 c2], rfl, ?_⟩
      have hsp : isPySpace (List.getLastD rest2 c2) = true :=
        hws (List.getLastD rest2 c2) (getLastD_mem_cons c2 rest2)
      rw [pyStrip_all_ws [List.getLastD rest2 c2] (by
            intro cc hm
            rw [List.mem_singleton] at hm
            rw [hm]
            exact hsp),
          pyStrip_all_ws (c2 :: rest2) hws]
  · rename_i c rest hd
    have hxsplit : x.takeWhile isPySpace ++ (c :: rest) = x := by
      rw [← hd]
      exact hsplit
    by_cases hcc : c = ','
    · subst hcc
      rw [if_pos rfl]
      rcases htw2 : x.takeWhile isPySpace with _ | ⟨t1, trest⟩
      · exfalso
        rw [htw2, List.nil_append] at hxsplit
        rw [← hxsplit] at hc
        simp at hc
      · refine ⟨[List.getLastD trest t1], rfl, ?_⟩
        have hsp : isPySpace (List.getLastD trest t1) = true := by
          apply hallx
          rw [htw2]
          exact getLastD_mem_cons t1 trest
        have hrhs : x.takeWhile (fun d => decide (d ≠ ',')) = t1 :: trest := by
          conv_lhs => rw [← hxsplit]
          rw [takeWhile_append_of_all _ _ _ hcomma_tw, List.takeWhile_cons,
              if_neg (by simp), List.append_nil, htw2]
        rw [hrhs,
            pyStrip_all_ws [List.getLastD trest t1] (by
              intro cc hm
              rw [List.mem_singleton] at hm
              rw [hm]
              exact hsp),
            pyStrip_all_ws (t1 :: trest) (by
              intro cc hm
              apply hallx
              rw [htw2]
              exact hm)]
    · rw [if_neg hcc]
      refine ⟨(c :: rest).takeWhile (fun d => decide (d ≠ ',')), rfl, ?_⟩
      have hrhs : x.takeWhile (fun d => decide (d ≠ ','))
          = x.takeWhile isPySpace ++ (c :: rest).takeWhile (fun d => decide (d ≠ ',')) := by
        conv_lhs => rw [← hxsplit]
        exact takeWhile_append_of_all _ _ _ hcomma_tw
      rw [hrhs, pyStrip_append_all_ws _ _ hallx]

/-- Matching at `in` followed by the rest delegates to the
`\s+([^,]+)` matcher. -/
theorem matchAt_in (rest : List Char) :
    matchAt ('i' :: 'n' :: rest) = groupAfterSpaces rest := by
  show (if ('i' = 'i' ∨ 'i' = 'I') ∧ ('n' = 'n' ∨ 'n' = 'N') then groupAfterSpaces rest
    else none) = groupAfterSpaces rest
  rw [if_pos ⟨Or.inl rfl, Or.inl rfl⟩]

/-- The regex scan skips a prefix at whose positions no match starts. -/
theorem findCityMatch_append (p q : List Char)
    (hp : ∀ i, i < p.length → matchAt ((p ++ q).drop i) = none) :
    findCityMatch (p ++ q) = findCityMatch q := by
  induction p with
  | nil => rfl
  | cons c p ih =>
    have h0 : matchAt (c :: (p ++ q)) = none := hp 0 (Nat.succ_pos p.length)
    rw [List.cons_append, findCityMatch, h0]
    exact ih (fun i hi => hp (i + 1) (Nat.succ_lt_succ hi))

/-- Claim C4 counterexample: the claim fails because the regex
`in\s+([^,]+)` has no word boundary, so the `in` at the end of `"Main"` is
the first match.  The query `"Main Street in Boston"` contains the pattern
`"in Boston"`, yet the location component is `"Street in Boston"`, not the
trimmed `"Boston"`. -/
theorem c4_counterexample :
    containsSub (String.toList " in Boston") (String.toList "Main Street in Boston") = true ∧
    cityOf (String.toList "Main Street in Boston") ≠ String.toList "Boston" ∧
    cityOf (String.toList "Main Street in Boston") = String.toList "Street in Boston" ∧
    deriveFilename "Main Street in Boston"
      = some "Street_in_Boston_Main_Street_results.csv" := by decide

/-- Claim C4 (amended): the location is taken from the first position where
`i`/`I` followed by `n`/`N` is immediately followed by whitespace — even
when that `in` ends a longer word — and runs from after the whitespace up
to the next comma (to the end of the string when there is none), trimmed.
For a query `p ++ "in" ++ whitespace ++ x` with no earlier such position,
the location is `x` truncated at its first comma and trimmed; the tail `x`
must be non-empty and not begin with a comma, since otherwise `[^,]+` has
nothing to match at this position and the scan moves on. -/
theorem c4_location_of_first_in (p x : List Char) (w : Char)
    (hw : isPySpace w = true) (hx : x ≠ []) (hc : x.head? ≠ some ',')
    (hp : ∀ i, i < p.length → matchAt ((p ++ 'i' :: 'n' :: w :: x).drop i) = none) :
    cityOf (p ++ 'i' :: 'n' :: w :: x)
      = pyStrip (x.takeWhile (fun d => decide (d ≠ ','))) := by
  obtain ⟨g, hg, hgs⟩ := groupAfterSpaces_strip w x hw hx hc
  unfold cityOf
  rw [findCityMatch_append p _ hp, findCityMatch, matchAt_in, hg]
  exact hgs

/-- Claim C4 witness: the amended statement at a concrete decomposition
with a standalone `" in "` and a comma in the tail, exercising the
truncation: the location of `"restaurants in Raleigh, North Carolina"` is
the trimmed `"Raleigh"`. -/
theorem c4_witness :
    cityOf (String.toList "restaurants"
        ++ 'i' :: 'n' :: ' ' :: String.toList "Raleigh, North Carolina")
      = pyStrip ((String.toList "Raleigh, North Carolina").takeWhile
          (fun d => decide (d ≠ ','))) :=
  c4_location_of_first_in (String.toList "restaurants")
    (String.toList "Raleigh, North Carolina") ' '
    (by decide) (by decide) (by decide) (by decide)

/-- A list is an initial segment of itself followed by anything. -/
theorem leadsWith_self_append (pat rest : List Char) :
    leadsWith pat (pat ++ rest) = true := by
  induction pat with
  | nil => rfl
  | cons c cs ih => simp [leadsWith, ih]

/-- A prefix occurrence gives substring containment. -/
theorem containsSub_of_leadsWith (pat l : List Char)
    (h : leadsWith pat l = true) : containsSub pat l = true := by
  cases l with
  | nil => exact h
  | cons c rest => simp [containsSub, h]

/-- Substring containment is preserved by extending on the left. -/
theorem containsSub_cons_of (pat : List Char) (c : Char) (rest : List Char)
    (h : containsSub pat rest = true) : containsSub pat (c :: rest) = true := by
  simp [containsSub, h]

/-- A list containing `pat` as a factor contains it as a substring. -/
theorem containsSub_append_pat (pat a b : List Char) :
    containsSub pat (a ++ (pat ++ b)) = true := by
  induction a with
  | nil =>
    rw [List.nil_append]
    exact containsSub_of_leadsWith pat (pat ++ b) (leadsWith_self_append pat b)
  | cons c as ih =>
    rw [List.cons_append]
    exact containsSub_cons_of pat c (as ++ (pat ++ b)) ih

/-- When no occurrence of the literal `" in "` starts inside `a`, the
`split(' in ')[0]` prefix of `a ++ " in " ++ b` is exactly `a`. -/
theorem beforeLitIn_append (a b : List Char)
    (ha : ∀ i, i < a.length → leadsWith inPat ((a ++ (inPat ++ b)).drop i) = false) :
    beforeLitIn (a ++ (inPat ++ b)) = a := by
  induction a with
  | nil =>
    rw [List.nil_append]
    show beforeLitIn (' ' :: 'i' :: 'n' :: ' ' :: b) = []
    have h := leadsWith_self_append inPat b
    rw [show inPat ++ b = ' ' :: 'i' :: 'n' :: ' ' :: b from rfl] at h
    rw [beforeLitIn, if_pos h]
  | cons c as ih =>
    have h0 : leadsWith inPat (c :: (as ++ (inPat ++ b))) = false :=
      ha 0 (Nat.succ_pos as.length)
    rw [List.cons_append, beforeLitIn, if_neg (by simp [h0])]
    rw [ih (fun i hi => ha (i + 1) (Nat.succ_lt_succ hi))]

/-- When the literal `" in "` does not occur at all, `split(' in ')[0]` is
the whole string. -/
theorem beforeLitIn_of_not_contains (q : List Char)
    (h : containsSub inPat q = false) : beforeLitIn q = q := by
  induction q with
  | nil => rfl
  | cons c rest ih =>
    simp only [containsSub, Bool.or_eq_false_iff] at h
    rw [beforeLitIn, if_neg (by simp [h.1]), ih h.2]

/-- Claim C5 counterexample: the condition is tested on the lowercased
query but the split runs on the original string, so for
`"Pizza IN Rome"` — whose lowercasing contains `" in "` — the category is
the whole stripped query, not the substring `"Pizza"` before the first
case-insensitive `" in "` occurrence as the claim requires. -/
theorem c5_counterexample :
    containsSub inPat (lowerStr (String.toList "Pizza IN Rome")) = true ∧
    categoryOf (String.toList "Pizza IN Rome") ≠ some (String.toList "Pizza") ∧
    categoryOf (String.toList "Pizza IN Rome")
      = some (String.toList "Pizza IN Rome") := by decide

/-- Claim C5 (amended): when the lowercased query contains `" in "`, the
category is the stripped prefix of the original query before its first
literal `" in "` occurrence — in particular the whole stripped query when
the original has no literal `" in "` — and otherwise it is the first
whitespace token of the query (which must exist, or the code raises). -/
theorem c5_category_component :
    (∀ (q t : List Char) (ts : List (List Char)),
      containsSub inPat (lowerStr q) = false → wsTokens q = t :: ts →
      categoryOf q = some t) ∧
    (∀ a b : List Char,
      (∀ i, i < a.length → leadsWith inPat ((a ++ (inPat ++ b)).drop i) = false) →
      categoryOf (a ++ (inPat ++ b)) = some (pyStrip a)) ∧
    (∀ q : List Char, containsSub inPat (lowerStr q) = true →
      containsSub inPat q = false → categoryOf q = some (pyStrip q)) := by
  refine ⟨?_, ?_, ?_⟩
  · intro q t ts h hw
    unfold categoryOf
    rw [if_neg (by simp [h]), hw]
    rfl
  · intro a b ha
    have hmap : List.map Char.toLower inPat = inPat := by decide
    have hlow : containsSub inPat (lowerStr (a ++ (inPat ++ b))) = true := by
      unfold lowerStr
      rw [List.map_append, List.map_append, hmap]
      exact containsSub_append_pat inPat (List.map Char.toLower a) (List.map Char.toLower b)
    unfold categoryOf
    rw [if_pos hlow, beforeLitIn_append a b ha]
  · intro q h1 h2
    unfold categoryOf
    rw [if_pos h1, beforeLitIn_of_not_contains q h2]

/-- Claim C5 witness: the no-`" in "` case on `"restaurants"` and the
literal case on `"Tacos in Austin"`. -/
theorem c5_witness :
    categoryOf (String.toList "restaurants") = some (String.toList "restaurants") ∧
    categoryOf (String.toList "Tacos" ++ (inPat ++ String.toList "Austin"))
      = some (pyStrip (String.toList "Tacos")) :=
  ⟨c5_category_component.1 (String.toList "restaurants") (String.toList "restaurants")
      [] (by decide) (by decide),
   c5_category_component.2.1 (String.toList "Tacos") (String.toList "Austin") (by decide)⟩

end ScottGoogle
